import Mathlib

/-!
Verification of the VoidEngine streaming analytics core (src/index.tsx).

The source bundles two near-identical engine classes; we embed both and call
them variant A (lines 560-739) and variant B (lines 763-925).  Numbers are
modelled as rationals; JavaScript Maps over numeric keys are modelled as
insertion-ordered association lists.
-/

/-- One recorded trade, mirroring `{ p: number; q: number; b: boolean; t: number }`. -/
structure Trade where
  p : ℚ
  q : ℚ
  b : Bool
  t : ℚ
deriving DecidableEq

def defaultTrade : Trade := { p := 0, q := 0, b := false, t := 0 }

/-- One display row, mirroring the `TitanStatus` interface. -/
structure Titan where
  name : String
  value : String
  active : Bool
deriving DecidableEq

/-- The published state record, mirroring the `VoidState` interface. -/
structure VoidState where
  price : ℚ
  void_elasticity : ℚ
  void_pressure : ℚ
  void_kinetic : ℚ
  domain_state : String
  signal : String
  monolith_stars : ℕ
  titans : List Titan
deriving DecidableEq

/-- A book side: insertion-ordered price-to-quantity association list, modelling
the JavaScript `Map<number, number>` fields `book_bids` / `book_asks`. -/
abbrev Book := List (ℚ × ℚ)

/-- The whole mutable engine: published state plus the private rolling buffers. -/
structure Engine where
  state : VoidState
  trades : List Trade
  book_bids : Book
  book_asks : Book
  imbalance_hist : List ℚ
deriving DecidableEq

/-- Left-pad a digit string with zeros to width d, helper for ratToFixed. -/
def padZeros (s : String) (d : ℕ) : String :=
  String.mk (List.replicate (d - s.length) (Char.ofNat 48)) ++ s

/-- Fixed-point rendering of a nonnegative rational with d decimal digits:
the integer numerator closest to x scaled by ten to the d, ties upward. -/
def ratToFixedAbs (x : ℚ) (d : ℕ) : String :=
  let scale : ℕ := 10 ^ d
  let n : ℕ := (round (x * (scale : ℚ))).toNat
  let ip := n / scale
  let fp := n % scale
  if d = 0 then toString ip
  else toString ip ++ "." ++ padZeros (toString fp) d

/-- Models `Number.prototype.toFixed` on values that are exactly representable:
the ECMAScript algorithm picks the integer n for which n over ten to the d is
closest to x (ties to the larger n) and renders a negative input as a minus
sign followed by the rendering of its negation. -/
def ratToFixed (x : ℚ) (d : ℕ) : String :=
  if x < 0 then "-" ++ ratToFixedAbs (-x) d else ratToFixedAbs x d

/-- Map.delete: removes every entry for the key (keys are unique in use). -/
def mapDelete (m : Book) (k : ℚ) : Book :=
  m.filter (fun pq => pq.1 != k)

/-- Map.set: replaces the value in place when the key is present, appends otherwise. -/
def mapSet (m : Book) (k v : ℚ) : Book :=
  if m.any (fun pq => pq.1 == k) then
    m.map (fun pq => if pq.1 == k then (k, v) else pq)
  else m ++ [(k, v)]

/-- Body of the per-pair update in processBook: quantity zero deletes the
level, any other quantity upserts it. -/
def applyBookUpdate (m : Book) (pq : ℚ × ℚ) : Book :=
  if pq.2 = 0 then mapDelete m pq.1 else mapSet m pq.1 pq.2

/-- The forEach loop over one side's update array. -/
def applyUpdates (m : Book) (updates : List (ℚ × ℚ)) : Book :=
  updates.foldl applyBookUpdate m

/-- Math.max over the keys of a book side (only used on a non-empty side). -/
def maxKey (m : Book) : ℚ :=
  match m with
  | [] => 0
  | pq :: rest => (rest.map Prod.fst).foldl max pq.1

/-- Math.min over the keys of a book side (only used on a non-empty side). -/
def minKey (m : Book) : ℚ :=
  match m with
  | [] => 0
  | pq :: rest => (rest.map Prod.fst).foldl min pq.1

/-- Map.get on a book side: the value stored under the key, if any. -/
def lookupQty (m : Book) (k : ℚ) : Option ℚ :=
  match m with
  | [] => none
  | pq :: rest => if pq.1 = k then some pq.2 else lookupQty rest k

/-- Variant A processTrade (src lines 622-645): records the trade with FIFO
eviction past 1000, recomputes the 3-second net flow, and recomputes the
micro-burst elasticity over the last 20 trades, holding the previous value
when the summed micro volume is not strictly above the 0.01 floor. -/
def processTradeA (eng : Engine) (p q : ℚ) (is_buyer_maker : Bool) (t_now : ℚ) : Engine :=
  let is_buyer := !is_buyer_maker
  let st0 := { eng.state with price := p }
  let trades1 := eng.trades ++ [{ p := p, q := q, b := is_buyer, t := t_now }]
  let trades2 := if 1000 < trades1.length then trades1.drop 1 else trades1
  let recent := trades2.filter (fun tr => decide (t_now - 3 < tr.t))
  let buy_vol := (recent.filter (fun tr => tr.b)).foldl (fun s tr => s + tr.q) 0
  let sell_vol := (recent.filter (fun tr => !tr.b)).foldl (fun s tr => s + tr.q) 0
  let st1 := { st0 with void_kinetic := buy_vol - sell_vol }
  let micro := trades2.drop (trades2.length - 20)
  let st2 :=
    if 1 < micro.length then
      let micro_price_delta := (micro.getLastD defaultTrade).p - (micro.headD defaultTrade).p
      let micro_vol := micro.foldl (fun s tr => s + tr.q) 0
      if (1/100 : ℚ) < micro_vol then
        { st1 with void_elasticity := micro_price_delta / micro_vol * 10000 }
      else st1
    else st1
  { eng with state := st2, trades := trades2 }

/-- Variant B processTrade (src lines 819-844): identical to variant A except
the micro window is the last 15 trades and thin micro volume resets the
elasticity to zero instead of holding it. -/
def processTradeB (eng : Engine) (p q : ℚ) (is_buyer_maker : Bool) (t_now : ℚ) : Engine :=
  let is_buyer := !is_buyer_maker
  let st0 := { eng.state with price := p }
  let trades1 := eng.trades ++ [{ p := p, q := q, b := is_buyer, t := t_now }]
  let trades2 := if 1000 < trades1.length then trades1.drop 1 else trades1
  let recent := trades2.filter (fun tr => decide (t_now - 3 < tr.t))
  let buy_vol := (recent.filter (fun tr => tr.b)).foldl (fun s tr => s + tr.q) 0
  let sell_vol := (recent.filter (fun tr => !tr.b)).foldl (fun s tr => s + tr.q) 0
  let st1 := { st0 with void_kinetic := buy_vol - sell_vol }
  let micro := trades2.drop (trades2.length - 15)
  let st2 :=
    if 1 < micro.length then
      let micro_price_delta := (micro.getLastD defaultTrade).p - (micro.headD defaultTrade).p
      let micro_vol := micro.foldl (fun s tr => s + tr.q) 0
      if (1/100 : ℚ) < micro_vol then
        { st1 with void_elasticity := micro_price_delta / micro_vol * 10000 }
      else { st1 with void_elasticity := 0 }
    else st1
  { eng with state := st2, trades := trades2 }

/-- processBook (src lines 647-674 and the textually identical 846-873):
applies both delta arrays, returns early if either side is empty, otherwise
recomputes the top-of-book imbalance and appends it to the bounded history. -/
def processBook (eng : Engine) (bids asks : List (ℚ × ℚ)) : Engine :=
  let bb := applyUpdates eng.book_bids bids
  let aa := applyUpdates eng.book_asks asks
  let eng1 : Engine := { eng with book_bids := bb, book_asks := aa }
  if bb.length = 0 ∨ aa.length = 0 then eng1
  else
    let best_bid := maxKey bb
    let best_ask := minKey aa
    let l1_bid_vol := (lookupQty bb best_bid).getD 0
    let l1_ask_vol := (lookupQty aa best_ask).getD 0
    let denom := l1_bid_vol + l1_ask_vol
    let imb := if 0 < denom then (l1_bid_vol - l1_ask_vol) / denom else 0
    let hist1 := eng1.imbalance_hist ++ [imb]
    let hist2 := if 120 < hist1.length then hist1.drop 1 else hist1
    { eng1 with
        state := { eng1.state with void_pressure := imb },
        imbalance_hist := hist2 }

/-- Variant A updateRegime (src lines 676-687).  The source compares
Math.sqrt of the population variance against 0.1 and 0.35; since variance and
both thresholds are nonnegative this is the same as comparing the variance
against the squared thresholds, which keeps the definition rational-valued. -/
def updateRegimeA (eng : Engine) : Engine :=
  if 10 < eng.imbalance_hist.length then
    let n : ℚ := eng.imbalance_hist.length
    let mean := eng.imbalance_hist.foldl (fun s x => s + x) 0 / n
    let variance := eng.imbalance_hist.foldl (fun s x => s + (x - mean) ^ 2) 0 / n
    let ds :=
      if variance < (1/10) ^ 2 then "STAGNATION"
      else if variance < (35/100) ^ 2 then "EQUILIBRIUM"
      else "VOLATILITY"
    { eng with state := { eng.state with domain_state := ds } }
  else eng

/-- Variant B updateRegime (src lines 875-886): thresholds 0.1 and 0.4,
regime vocabulary STAGNANT / STABLE / VOLATILE. -/
def updateRegimeB (eng : Engine) : Engine :=
  if 10 < eng.imbalance_hist.length then
    let n : ℚ := eng.imbalance_hist.length
    let mean := eng.imbalance_hist.foldl (fun s x => s + x) 0 / n
    let variance := eng.imbalance_hist.foldl (fun s x => s + (x - mean) ^ 2) 0 / n
    let ds :=
      if variance < (1/10) ^ 2 then "STAGNANT"
      else if variance < (4/10) ^ 2 then "STABLE"
      else "VOLATILE"
    { eng with state := { eng.state with domain_state := ds } }
  else eng

/-- Variant A calculateMonolith (src lines 689-738): five one-point factors,
titan display rows, and the star-count signal mapping. -/
def calculateMonolithA (eng : Engine) : Engine :=
  let k := eng.state.void_kinetic
  let p := eng.state.void_pressure
  let e := eng.state.void_elasticity
  let d := eng.state.domain_state
  let ctd_active := decide (50 < |k|)
  let stars1 : ℕ := if ctd_active then 1 else 0
  let obi_active := decide ((3 : ℚ)/10 < |p|)
  let stars2 := if obi_active then stars1 + 1 else stars1
  let lq_active := decide ((2 : ℚ) < |e|)
  let stars3 := if lq_active then stars2 + 1 else stars2
  let regime_active := d == "VOLATILITY"
  let stars4 := if regime_active then stars3 + 1 else stars3
  let wa_active := decide ((0 < k ∧ 0 < p) ∨ (k < 0 ∧ p < 0))
  let stars := if wa_active then stars4 + 1 else stars4
  let titans := [
    { name := "CTD (Kinetic)", value := ratToFixed k 1, active := ctd_active : Titan },
    { name := "OBI (Pressure)", value := ratToFixed p 2, active := obi_active : Titan },
    { name := "LQ  (Elasticity)", value := ratToFixed e 2, active := lq_active : Titan },
    { name := "BASIS", value := "0.01%", active := true : Titan },
    { name := "WA  (Whale)", value := if wa_active then "DETECTED" else "---", active := wa_active : Titan }]
  let signal :=
    if 4 ≤ stars then (if 0 < k then "EXECUTE LONG" else "EXECUTE SHORT")
    else if stars = 3 then "PREPARE"
    else "STANDBY"
  { eng with state :=
      { eng.state with monolith_stars := stars, titans := titans, signal := signal } }

/-- Variant B calculateMonolith (src lines 888-925): four one-point factors,
the priority-ordered trap and break signal guards over raw kinetic and
elasticity, and static placeholder titan rows. -/
def calculateMonolithB (eng : Engine) : Engine :=
  let k := eng.state.void_kinetic
  let p := eng.state.void_pressure
  let e := eng.state.void_elasticity
  let ctd_active := decide (50 < |k|)
  let stars1 : ℕ := if ctd_active then 1 else 0
  let obi_active := decide ((3 : ℚ)/10 < |p|)
  let stars2 := if obi_active then stars1 + 1 else stars1
  let lq_active := decide ((2 : ℚ) < |e|)
  let stars3 := if lq_active then stars2 + 1 else stars2
  let regime_active := eng.state.domain_state == "VOLATILE"
  let stars := if regime_active then stars3 + 1 else stars3
  let signal :=
    if 50 < k ∧ e < 1/2 then "SHORT (TRAP)"
    else if 50 < k ∧ 2 < e then "LONG (BREAK)"
    else if k < -50 ∧ -(1/2) < e then "LONG (TRAP)"
    else if k < -50 ∧ e < -2 then "SHORT (BREAK)"
    else "OBSERVE"
  let titans := [
    { name := "CTD (Kinetic)", value := ratToFixed k 1, active := ctd_active : Titan },
    { name := "OBI (Pressure)", value := ratToFixed p 2, active := obi_active : Titan },
    { name := "LQ  (Elasticity)", value := ratToFixed e 2, active := lq_active : Titan },
    { name := "BASIS", value := "---", active := false : Titan },
    { name := "WA", value := "---", active := false : Titan }]
  { eng with state :=
      { eng.state with monolith_stars := stars, titans := titans, signal := signal } }

/-- Initial engine state of variant A (src lines 561-576). -/
def initStateA : VoidState :=
  { price := 0, void_elasticity := 0, void_pressure := 0, void_kinetic := 0,
    domain_state := "CALCULATING", signal := "STANDBY", monolith_stars := 0,
    titans := [
      { name := "CTD (Kinetic)", value := "0", active := false },
      { name := "OBI (Pressure)", value := "0.0", active := false },
      { name := "LQ  (Elasticity)", value := "0.0", active := false },
      { name := "BASIS", value := "0.0%", active := true },
      { name := "WA  (Volume)", value := "---", active := false }] }

def initEngineA : Engine :=
  { state := initStateA, trades := [], book_bids := [], book_asks := [], imbalance_hist := [] }

/-- Initial engine state of variant B (src lines 764-773): same scalars, empty titan list. -/
def initStateB : VoidState :=
  { price := 0, void_elasticity := 0, void_pressure := 0, void_kinetic := 0,
    domain_state := "CALCULATING", signal := "STANDBY", monolith_stars := 0,
    titans := [] }

def initEngineB : Engine :=
  { state := initStateB, trades := [], book_bids := [], book_asks := [], imbalance_hist := [] }

/-!
Inbound message model.

`connect` installs a WebSocket onmessage handler (src lines 602-619 and the
textually identical 799-816) that parses the payload, dispatches on the
stream name, recomputes regime and verdict and publishes a snapshot.  The
handler has no exception guard: JSON.parse on garbage, `stream.includes` on a
missing stream field, `data.p` / `data.b` access on a missing data object and
`bids.forEach` / `asks.forEach` on a missing update array all throw before or
during the dispatch, aborting the tick at that point.

The message space below is the post-parse shape of a payload.  Numeric string
fields, when present, are assumed to parse to finite numbers (a non-numeric
price or quantity string would flow through `parseFloat` as a NaN float,
which lies outside this rational embedding); structurally missing fields are
modelled explicitly.
-/

inductive StreamTag where
  | aggTrade
  | depth
  | other
deriving DecidableEq

/-- An inbound feed message as seen by the onmessage handler. -/
inductive InMsg where
  /-- event.data on which JSON.parse throws -/
  | unparseable
  /-- a parsed payload without a stream field -/
  | noStream
  /-- stream present, data field missing -/
  | noData (tag : StreamTag)
  /-- an aggTrade payload: numeric p and q, maker flag possibly missing -/
  | trade (p q : ℚ) (m : Option Bool)
  /-- a depth payload: bid and ask update arrays, each possibly missing -/
  | book (b : Option (List (ℚ × ℚ))) (a : Option (List (ℚ × ℚ)))
  /-- a payload whose stream matches neither aggTrade nor depth -/
  | otherStream
deriving DecidableEq

/-- Result of one onmessage invocation: either an exception propagated out of
the handler (with the engine as left at the throw point, nothing published),
or a completed tick whose snapshot was handed to the subscriber. -/
inductive HandlerOutcome where
  | threw (eng : Engine)
  | published (eng : Engine)
deriving DecidableEq

def outState : HandlerOutcome → Engine
  | .threw eng => eng
  | .published eng => eng

def isPublished : HandlerOutcome → Bool
  | .threw _ => false
  | .published _ => true

/-- Variant A onmessage handler (src lines 602-619).  Throw points: JSON.parse
on garbage; `stream.includes` when the stream field is missing;
`parseFloat(data.p)` and `data.b` access when the data object is missing on a
matching stream; `bids.forEach` when the bid array is missing (before any
mutation); `asks.forEach` when only the ask array is missing (after the bid
updates were already applied).  The missing maker flag is NOT a throw:
`!undefined` is `true`, so the trade is processed as buyer-initiated. -/
def handleMessageA (eng : Engine) (msg : InMsg) (t_now : ℚ) : HandlerOutcome :=
  match msg with
  | .unparseable => .threw eng
  | .noStream => .threw eng
  | .noData .aggTrade => .threw eng
  | .noData .depth => .threw eng
  | .noData .other => .published (calculateMonolithA (updateRegimeA eng))
  | .trade p q m =>
      .published (calculateMonolithA (updateRegimeA (processTradeA eng p q (m == some true) t_now)))
  | .book none _ => .threw eng
  | .book (some bs) none => .threw { eng with book_bids := applyUpdates eng.book_bids bs }
  | .book (some bs) (some aks) =>
      .published (calculateMonolithA (updateRegimeA (processBook eng bs aks)))
  | .otherStream => .published (calculateMonolithA (updateRegimeA eng))

/-- Variant B onmessage handler (src lines 799-816), same shape as variant A. -/
def handleMessageB (eng : Engine) (msg : InMsg) (t_now : ℚ) : HandlerOutcome :=
  match msg with
  | .unparseable => .threw eng
  | .noStream => .threw eng
  | .noData .aggTrade => .threw eng
  | .noData .depth => .threw eng
  | .noData .other => .published (calculateMonolithB (updateRegimeB eng))
  | .trade p q m =>
      .published (calculateMonolithB (updateRegimeB (processTradeB eng p q (m == some true) t_now)))
  | .book none _ => .threw eng
  | .book (some bs) none => .threw { eng with book_bids := applyUpdates eng.book_bids bs }
  | .book (some bs) (some aks) =>
      .published (calculateMonolithB (updateRegimeB (processBook eng bs aks)))
  | .otherStream => .published (calculateMonolithB (updateRegimeB eng))

/-- Engine states reachable through any sequence of inbound messages,
including malformed ones, for variant A. -/
inductive ReachableA : Engine → Prop where
  | init : ReachableA initEngineA
  | step (eng : Engine) (msg : InMsg) (t_now : ℚ) :
      ReachableA eng → ReachableA (outState (handleMessageA eng msg t_now))

/-- Engine states reachable through any sequence of inbound messages for variant B. -/
inductive ReachableB : Engine → Prop where
  | init : ReachableB initEngineB
  | step (eng : Engine) (msg : InMsg) (t_now : ℚ) :
      ReachableB eng → ReachableB (outState (handleMessageB eng msg t_now))

/-- Run a list of timestamped messages through the variant A handler. -/
def runMsgsA (eng : Engine) : List (InMsg × ℚ) → Engine
  | [] => eng
  | (msg, t_now) :: rest => runMsgsA (outState (handleMessageA eng msg t_now)) rest

/-!
Spec-side functions, written from the specification's wording, to be compared
against the source translations above.
-/

/-- Net flow as the spec words it: sum of quantities of buyer-initiated
trades minus sum of quantities of seller-initiated trades, restricted to
trades with timestamp strictly inside the trailing 3-second window. -/
def netFlowSpec (buf : List Trade) (t_now : ℚ) : ℚ :=
  ((buf.filter (fun tr => tr.b && decide (t_now - 3 < tr.t))).map Trade.q).sum
    - ((buf.filter (fun tr => !tr.b && decide (t_now - 3 < tr.t))).map Trade.q).sum

/-- The last n elements of a buffer, as `slice(-n)` produces them. -/
def lastWindow (buf : List Trade) (n : ℕ) : List Trade :=
  buf.drop (buf.length - n)

/-- Summed quantity of a trade window. -/
def windowVolume (w : List Trade) : ℚ := (w.map Trade.q).sum

/-- Elasticity over a window as the spec words it: last price minus first
price, divided by the summed quantity, scaled by ten thousand. -/
def elasticityFormula (w : List Trade) : ℚ :=
  ((w.getLastD defaultTrade).p - (w.headD defaultTrade).p) / windowVolume w * 10000

/-- The amended thin-volume policy for the elasticity metric: with fewer than
two buffered trades the metric is untouched; with a window whose summed
quantity is strictly above the 0.01 floor it takes the formula value; at or
below the floor variant A holds the previous value. -/
def elasticityNextA (buf : List Trade) (prev : ℚ) : ℚ :=
  let w := lastWindow buf 20
  if 1 < w.length then
    if (1/100 : ℚ) < windowVolume w then elasticityFormula w else prev
  else prev

/-- Amended thin-volume policy, variant B: at or below the floor the metric
resets to zero; with fewer than two buffered trades it is untouched. -/
def elasticityNextB (buf : List Trade) (prev : ℚ) : ℚ :=
  let w := lastWindow buf 15
  if 1 < w.length then
    if (1/100 : ℚ) < windowVolume w then elasticityFormula w else 0
  else prev

/-- One trap or break guard: a test over raw kinetic and elasticity and the
signal it emits. -/
structure SignalGuard where
  check : ℚ → ℚ → Bool
  out : String

/-- The spec's fixed guard sequence for the trap and break policy. -/
def trapBreakGuards : List SignalGuard :=
  [ { check := fun k e => decide (50 < k) && decide (e < 1/2), out := "SHORT (TRAP)" },
    { check := fun k e => decide (50 < k) && decide (2 < e), out := "LONG (BREAK)" },
    { check := fun k e => decide (k < -50) && decide (-(1/2) < e), out := "LONG (TRAP)" },
    { check := fun k e => decide (k < -50) && decide (e < -2), out := "SHORT (BREAK)" } ]

/-- First-match-wins evaluation of the guard sequence, defaulting to OBSERVE. -/
def trapBreakSpec (k e : ℚ) : String :=
  ((trapBreakGuards.find? (fun g => g.check k e)).map SignalGuard.out).getD "OBSERVE"

/-- Population variance of a sample list, as the spec words it. -/
def popVariance (l : List ℚ) : ℚ :=
  let n : ℚ := l.length
  let mean := l.sum / n
  ((l.map (fun x => (x - mean) ^ 2)).sum) / n

/-- Three-way threshold classification of the dispersion of the history, with
the thresholds given squared because the source compares the square root of
the variance against them. -/
def classifyRegime (l : List ℚ) (lowSq highSq : ℚ) (lowName midName highName : String) : String :=
  if popVariance l < lowSq then lowName
  else if popVariance l < highSq then midName
  else highName

/-!
Reference-semantics model of the snapshot publisher, for the deep-copy claim.

In the source the engine keeps one mutable state object whose `titans` field
holds a reference to an array; `calculateMonolith` assigns a freshly
allocated array each tick, and the publish site passes subscribers
`{...this.state}` — a spread, which copies the scalar fields by value but
copies the `titans` field as a reference to the engine's current array.

The model below makes that aliasing explicit: titan arrays live in a store
indexed by allocation order; the engine and every published snapshot hold an
address into the store; a subscriber mutating a snapshot's titans mutates the
stored array at that address.
-/

/-- What a subscriber receives: the spread copy of the state object.  Scalar
fields are copied by value; the titans field is an address into the store. -/
structure Snap where
  price : ℚ
  void_elasticity : ℚ
  void_pressure : ℚ
  void_kinetic : ℚ
  domain_state : String
  signal : String
  monolith_stars : ℕ
  titansAddr : ℕ
deriving DecidableEq

def defaultSnap : Snap :=
  { price := 0, void_elasticity := 0, void_pressure := 0, void_kinetic := 0,
    domain_state := "", signal := "", monolith_stars := 0, titansAddr := 0 }

/-- The engine plus the heap of titan arrays and the list of snapshots handed
out so far, in publication order. -/
structure World where
  core : Engine
  engineTitansAddr : ℕ
  store : List (List Titan)
  snapshots : List Snap
deriving DecidableEq

/-- Initial world for variant A: the initial state object's titan array is
the single allocated array and the engine points at it. -/
def initWorldA : World :=
  { core := initEngineA, engineTitansAddr := 0,
    store := [initStateA.titans], snapshots := [] }

/-- Dereference a titans address. -/
def readTitans (w : World) (r : ℕ) : List Titan :=
  w.store.getD r []

def mkSnap (s : VoidState) (addr : ℕ) : Snap :=
  { price := s.price, void_elasticity := s.void_elasticity,
    void_pressure := s.void_pressure, void_kinetic := s.void_kinetic,
    domain_state := s.domain_state, signal := s.signal,
    monolith_stars := s.monolith_stars, titansAddr := addr }

/-- One onmessage invocation at the reference level, variant A.  A completed
tick ran `calculateMonolith`, which allocated a fresh titans array; the
publish spread hands the subscriber a snapshot holding that same address.  A
throwing tick allocates nothing and publishes nothing. -/
def publishTickA (w : World) (msg : InMsg) (t_now : ℚ) : World :=
  match handleMessageA w.core msg t_now with
  | .threw eng1 => { w with core := eng1 }
  | .published eng1 =>
      { core := eng1,
        engineTitansAddr := w.store.length,
        store := w.store ++ [eng1.state.titans],
        snapshots := w.snapshots ++ [mkSnap eng1.state w.store.length] }

/-- A subscriber mutating the titans array it can reach through an address
it holds (for example pushing onto it or rewriting a row in place). -/
def mutateTitans (w : World) (r : ℕ) (f : List Titan → List Titan) : World :=
  { w with store := w.store.set r (f (readTitans w r)) }

/-- The titans sequence observable through snapshot i of a world. -/
def snapTitans (w : World) (i : ℕ) : List Titan :=
  readTitans w ((w.snapshots.getD i defaultSnap).titansAddr)

/-!
Concrete inputs used by counterexamples and witnesses.
-/

/-- A well-formed trade message: price 1, quantity 1, buyer the maker. -/
def tradeMsg1 : InMsg := .trade 1 1 (some true)

/-- World after one published tick from the initial variant A world. -/
def c1World1 : World := publishTickA initWorldA tradeMsg1 0

/-- The same world after the subscriber holding snapshot 0 empties the titans
array it received. -/
def c1World2 : World :=
  mutateTitans c1World1 ((c1World1.snapshots.getD 0 defaultSnap).titansAddr) (fun _ => [])

/-- World after two published ticks from the initial variant A world. -/
def c1TwoTicks : World := publishTickA (publishTickA initWorldA tradeMsg1 0) tradeMsg1 1

/-- Variant A engine after two buyer trades of quantity 1/200 at prices 1 and
2: the micro window volume is exactly the 0.01 floor. -/
def c5Engine : Engine :=
  processTradeA (processTradeA initEngineA 1 (1/200) false 0) 2 (1/200) false 0

/-- A JSON-parseable aggTrade payload with numeric price and quantity but no
maker flag: malformed against the feed contract, yet processed by the code. -/
def c9BadMsg : InMsg := .trade (3/2) 2 none

/-- Variant A engine with the metric values of the star-count scenario. -/
def c2Engine : Engine :=
  { initEngineA with state :=
      { initStateA with void_kinetic := 60, void_pressure := 0,
                        void_elasticity := 3, domain_state := "VOLATILITY" } }

/-- Variant B engine with the metric values of the trap scenario. -/
def c3Engine : Engine :=
  { initEngineB with state :=
      { initStateB with void_kinetic := 60, void_elasticity := 3/10 } }

/-- Twelve imbalance samples, half at 1/4 and half at -1/4: population mean 0,
population variance 1/16, hence volatility 1/4. -/
def c8Hist : List ℚ := List.replicate 6 (1/4) ++ List.replicate 6 (-(1/4))

/-- Variant A engine carrying that history. -/
def c8Engine : Engine := { initEngineA with imbalance_hist := c8Hist }

/-- Eleven depth messages, enough to push the imbalance history past ten samples. -/
def elevenBooks : List (InMsg × ℚ) :=
  List.replicate 11 (InMsg.book (some [(1, 1)]) (some [(2, 1)]), 0)

/-- A reachable variant A engine whose history holds eleven samples. -/
def c10Engine : Engine := runMsgsA initEngineA elevenBooks

/-!
Helper lemmas.
-/

/-- A left fold accumulating a mapped value is the sum of the mapped list. -/
theorem foldl_add_map {α : Type} (f : α → ℚ) (l : List α) (a : ℚ) :
    l.foldl (fun s x => s + f x) a = a + (l.map f).sum := by
  induction l generalizing a with
  | nil => simp
  | cons hd tl ih => simp [ih, add_assoc]

/-- Deleting a key removes its entry. -/
theorem lookupQty_mapDelete (m : Book) (k : ℚ) :
    lookupQty (mapDelete m k) k = none := by
  induction m with
  | nil => rfl
  | cons hd tl ih =>
    by_cases h : hd.1 = k
    · simpa [mapDelete, List.filter_cons, h] using ih
    · simpa [mapDelete, List.filter_cons, h, lookupQty] using ih

/-- Replacing an existing key's entry in place stores the new value. -/
theorem lookupQty_replace (m : Book) (k v : ℚ)
    (h : m.any (fun pq => pq.1 == k) = true) :
    lookupQty (m.map (fun pq => if pq.1 == k then (k, v) else pq)) k = some v := by
  induction m with
  | nil => simp at h
  | cons hd tl ih =>
    by_cases hh : hd.1 = k
    · simp [lookupQty, hh]
    · simp only [List.any_cons, Bool.or_eq_true, beq_iff_eq, hh, false_or] at h
      simpa [lookupQty, hh] using ih h

/-- Appending a fresh entry makes it the stored value for its key. -/
theorem lookupQty_append_single (m : Book) (k v : ℚ)
    (h : m.any (fun pq => pq.1 == k) = false) :
    lookupQty (m ++ [(k, v)]) k = some v := by
  induction m with
  | nil => simp [lookupQty]
  | cons hd tl ih =>
    simp only [List.any_cons, Bool.or_eq_false_iff, beq_eq_false_iff_ne] at h
    simpa [lookupQty, h.1] using ih (by simpa using h.2)

/-- Map.set stores the value under the key. -/
theorem lookupQty_mapSet (m : Book) (k v : ℚ) :
    lookupQty (mapSet m k v) k = some v := by
  unfold mapSet
  by_cases h : m.any (fun pq => pq.1 == k) = true
  · simpa [h] using lookupQty_replace m k v h
  · have h2 : m.any (fun pq => pq.1 == k) = false := by
      cases hc : m.any (fun pq => pq.1 == k) with
      | false => rfl
      | true => exact absurd hc h
    simpa [h2] using lookupQty_append_single m k v h2

/-- A book side with only positive stored quantities. -/
def bookPos (m : Book) : Prop := ∀ pq ∈ m, 0 < pq.2

instance (m : Book) : Decidable (bookPos m) := by
  unfold bookPos; infer_instance

/-- One delta pair with nonnegative quantity keeps stored quantities positive. -/
theorem bookPos_applyBookUpdate (m : Book) (pq : ℚ × ℚ)
    (hm : bookPos m) (hq : 0 ≤ pq.2) :
    bookPos (applyBookUpdate m pq) := by
  unfold applyBookUpdate
  by_cases h0 : pq.2 = 0
  · simp only [h0, if_pos rfl]
    intro x hx
    exact hm x (List.mem_of_mem_filter hx)
  · have hpos : 0 < pq.2 := lt_of_le_of_ne hq (Ne.symm h0)
    simp only [if_neg h0]
    unfold mapSet
    by_cases hany : m.any (fun e => e.1 == pq.1) = true
    · simp only [hany, if_pos rfl]
      intro x hx
      rcases List.mem_map.mp hx with ⟨y, hy, hxy⟩
      by_cases hk : y.1 = pq.1
      · simp [hk] at hxy
        rw [← hxy]
        exact hpos
      · simp [hk] at hxy
        rw [← hxy]
        exact hm y hy
    · simp only [hany]
      intro x hx
      rcases List.mem_append.mp hx with hx1 | hx1
      · exact hm x hx1
      · rcases List.mem_singleton.mp hx1 with rfl
        exact hpos

/-- A whole update array with nonnegative quantities keeps quantities positive. -/
theorem bookPos_applyUpdates (ups : List (ℚ × ℚ)) (m : Book)
    (hm : bookPos m) (hq : ∀ pq ∈ ups, 0 ≤ pq.2) :
    bookPos (applyUpdates m ups) := by
  induction ups generalizing m with
  | nil => exact hm
  | cons hd tl ih =>
    have h1 : bookPos (applyBookUpdate m hd) :=
      bookPos_applyBookUpdate m hd hm (hq hd (List.mem_cons_self hd tl))
    exact ih (applyBookUpdate m hd) h1 (fun pq hpq => hq pq (List.mem_cons_of_mem hd hpq))

/-- Looking up any key in a positive book yields a nonnegative default-zero value. -/
theorem lookupQty_getD_nonneg (m : Book) (k : ℚ) (hm : bookPos m) :
    0 ≤ ((lookupQty m k).getD 0) := by
  induction m with
  | nil => simp [lookupQty]
  | cons hd tl ih =>
    by_cases h : hd.1 = k
    · simpa [lookupQty, h] using le_of_lt (hm hd (List.mem_cons_self hd tl))
    · simpa [lookupQty, h] using ih (fun pq hpq => hm pq (List.mem_cons_of_mem hd hpq))

/-- processTrade touches only the published state and the trade buffer. -/
theorem processTradeA_hist (eng : Engine) (p q : ℚ) (mk : Bool) (t_now : ℚ) :
    (processTradeA eng p q mk t_now).imbalance_hist = eng.imbalance_hist := rfl

theorem processTradeB_hist (eng : Engine) (p q : ℚ) (mk : Bool) (t_now : ℚ) :
    (processTradeB eng p q mk t_now).imbalance_hist = eng.imbalance_hist := rfl

/-- processTrade never rewrites the regime field. -/
theorem processTradeA_domain (eng : Engine) (p q : ℚ) (mk : Bool) (t_now : ℚ) :
    (processTradeA eng p q mk t_now).state.domain_state = eng.state.domain_state := by
  simp only [processTradeA]
  split_ifs <;> rfl

theorem processTradeB_domain (eng : Engine) (p q : ℚ) (mk : Bool) (t_now : ℚ) :
    (processTradeB eng p q mk t_now).state.domain_state = eng.state.domain_state := by
  simp only [processTradeB]
  split_ifs <;> rfl

/-- processBook never rewrites the regime field. -/
theorem processBook_domain (eng : Engine) (bids asks : List (ℚ × ℚ)) :
    (processBook eng bids asks).state.domain_state = eng.state.domain_state := by
  simp only [processBook]
  split <;> rfl

/-- Appending a sample and evicting past 120 never shortens the history. -/
theorem hist_append_evict_len (h : List ℚ) (x : ℚ) :
    h.length ≤ (if 120 < (h ++ [x]).length then (h ++ [x]).drop 1 else h ++ [x]).length := by
  split <;> simp

/-- processBook never shortens the imbalance history. -/
theorem processBook_hist_len (eng : Engine) (bids asks : List (ℚ × ℚ)) :
    eng.imbalance_hist.length ≤ (processBook eng bids asks).imbalance_hist.length := by
  simp only [processBook]
  split
  · exact le_refl _
  · exact hist_append_evict_len _ _

/-- processBook leaves the bid side as the applied bid deltas, in both branches. -/
theorem processBook_bids (eng : Engine) (bids asks : List (ℚ × ℚ)) :
    (processBook eng bids asks).book_bids = applyUpdates eng.book_bids bids := by
  simp only [processBook]
  split <;> rfl

theorem processBook_asks (eng : Engine) (bids asks : List (ℚ × ℚ)) :
    (processBook eng bids asks).book_asks = applyUpdates eng.book_asks asks := by
  simp only [processBook]
  split <;> rfl

/-- updateRegime leaves the history untouched. -/
theorem updateRegimeA_hist (eng : Engine) :
    (updateRegimeA eng).imbalance_hist = eng.imbalance_hist := by
  simp only [updateRegimeA]
  split <;> rfl

theorem updateRegimeB_hist (eng : Engine) :
    (updateRegimeB eng).imbalance_hist = eng.imbalance_hist := by
  simp only [updateRegimeB]
  split <;> rfl

/-- With ten or fewer samples updateRegime is the identity. -/
theorem updateRegimeA_small (eng : Engine) (h : eng.imbalance_hist.length ≤ 10) :
    updateRegimeA eng = eng := by
  simp only [updateRegimeA]
  rw [if_neg (by omega)]

theorem updateRegimeB_small (eng : Engine) (h : eng.imbalance_hist.length ≤ 10) :
    updateRegimeB eng = eng := by
  simp only [updateRegimeB]
  rw [if_neg (by omega)]

/-- calculateMonolith never rewrites the regime field or the history. -/
theorem calculateMonolithA_domain (eng : Engine) :
    (calculateMonolithA eng).state.domain_state = eng.state.domain_state := rfl

theorem calculateMonolithB_domain (eng : Engine) :
    (calculateMonolithB eng).state.domain_state = eng.state.domain_state := rfl

theorem calculateMonolithA_hist (eng : Engine) :
    (calculateMonolithA eng).imbalance_hist = eng.imbalance_hist := rfl

theorem calculateMonolithB_hist (eng : Engine) :
    (calculateMonolithB eng).imbalance_hist = eng.imbalance_hist := rfl

/-- calculateMonolith does not read or rewrite kinetic. -/
theorem calculateMonolithA_kinetic (eng : Engine) :
    (calculateMonolithA eng).state.void_kinetic = eng.state.void_kinetic := rfl

/-- Left fold of plain addition is the sum. -/
theorem foldl_add_id (l : List ℚ) (a : ℚ) :
    l.foldl (fun s x => s + x) a = a + l.sum := by
  induction l generalizing a with
  | nil => simp
  | cons hd tl ih => simp [ih, add_assoc]

/-- No onmessage outcome shortens the history (variant A). -/
theorem handleA_hist_len (eng : Engine) (msg : InMsg) (t_now : ℚ) :
    eng.imbalance_hist.length ≤ (outState (handleMessageA eng msg t_now)).imbalance_hist.length := by
  cases msg with
  | unparseable => exact le_refl _
  | noStream => exact le_refl _
  | noData tag =>
    cases tag <;>
      simp [handleMessageA, outState, calculateMonolithA_hist, updateRegimeA_hist]
  | trade p q m =>
    simp [handleMessageA, outState, calculateMonolithA_hist, updateRegimeA_hist,
      processTradeA_hist]
  | book b a =>
    cases b with
    | none => exact le_refl _
    | some bs =>
      cases a with
      | none => exact le_refl _
      | some aks =>
        simpa [handleMessageA, outState, calculateMonolithA_hist, updateRegimeA_hist]
          using processBook_hist_len eng bs aks
  | otherStream =>
    simp [handleMessageA, outState, calculateMonolithA_hist, updateRegimeA_hist]

/-- No onmessage outcome shortens the history (variant B). -/
theorem handleB_hist_len (eng : Engine) (msg : InMsg) (t_now : ℚ) :
    eng.imbalance_hist.length ≤ (outState (handleMessageB eng msg t_now)).imbalance_hist.length := by
  cases msg with
  | unparseable => exact le_refl _
  | noStream => exact le_refl _
  | noData tag =>
    cases tag <;>
      simp [handleMessageB, outState, calculateMonolithB_hist, updateRegimeB_hist]
  | trade p q m =>
    simp [handleMessageB, outState, calculateMonolithB_hist, updateRegimeB_hist,
      processTradeB_hist]
  | book b a =>
    cases b with
    | none => exact le_refl _
    | some bs =>
      cases a with
      | none => exact le_refl _
      | some aks =>
        simpa [handleMessageB, outState, calculateMonolithB_hist, updateRegimeB_hist]
          using processBook_hist_len eng bs aks
  | otherStream =>
    simp [handleMessageB, outState, calculateMonolithB_hist, updateRegimeB_hist]

/-- While the resulting history still holds ten or fewer samples, an
onmessage invocation leaves the regime field untouched (variant A). -/
theorem handleA_domain_small (eng : Engine) (msg : InMsg) (t_now : ℚ)
    (h : (outState (handleMessageA eng msg t_now)).imbalance_hist.length ≤ 10) :
    (outState (handleMessageA eng msg t_now)).state.domain_state = eng.state.domain_state := by
  cases msg with
  | unparseable => rfl
  | noStream => rfl
  | noData tag =>
    cases tag with
    | aggTrade => rfl
    | depth => rfl
    | other =>
      have hm : eng.imbalance_hist.length ≤ 10 := by
        simpa [handleMessageA, outState, calculateMonolithA_hist, updateRegimeA_hist] using h
      simp [handleMessageA, outState, calculateMonolithA_domain, updateRegimeA_small _ hm]
  | trade p q m =>
    have hm : (processTradeA eng p q (m == some true) t_now).imbalance_hist.length ≤ 10 := by
      simpa [handleMessageA, outState, calculateMonolithA_hist, updateRegimeA_hist] using h
    simp [handleMessageA, outState, calculateMonolithA_domain, updateRegimeA_small _ hm,
      processTradeA_domain]
  | book b a =>
    cases b with
    | none => rfl
    | some bs =>
      cases a with
      | none => rfl
      | some aks =>
        have hm : (processBook eng bs aks).imbalance_hist.length ≤ 10 := by
          simpa [handleMessageA, outState, calculateMonolithA_hist, updateRegimeA_hist] using h
        simp [handleMessageA, outState, calculateMonolithA_domain, updateRegimeA_small _ hm,
          processBook_domain]
  | otherStream =>
    have hm : eng.imbalance_hist.length ≤ 10 := by
      simpa [handleMessageA, outState, calculateMonolithA_hist, updateRegimeA_hist] using h
    simp [handleMessageA, outState, calculateMonolithA_domain, updateRegimeA_small _ hm]

/-- While the resulting history still holds ten or fewer samples, an
onmessage invocation leaves the regime field untouched (variant B). -/
theorem handleB_domain_small (eng : Engine) (msg : InMsg) (t_now : ℚ)
    (h : (outState (handleMessageB eng msg t_now)).imbalance_hist.length ≤ 10) :
    (outState (handleMessageB eng msg t_now)).state.domain_state = eng.state.domain_state := by
  cases msg with
  | unparseable => rfl
  | noStream => rfl
  | noData tag =>
    cases tag with
    | aggTrade => rfl
    | depth => rfl
    | other =>
      have hm : eng.imbalance_hist.length ≤ 10 := by
        simpa [handleMessageB, outState, calculateMonolithB_hist, updateRegimeB_hist] using h
      simp [handleMessageB, outState, calculateMonolithB_domain, updateRegimeB_small _ hm]
  | trade p q m =>
    have hm : (processTradeB eng p q (m == some true) t_now).imbalance_hist.length ≤ 10 := by
      simpa [handleMessageB, outState, calculateMonolithB_hist, updateRegimeB_hist] using h
    simp [handleMessageB, outState, calculateMonolithB_domain, updateRegimeB_small _ hm,
      processTradeB_domain]
  | book b a =>
    cases b with
    | none => rfl
    | some bs =>
      cases a with
      | none => rfl
      | some aks =>
        have hm : (processBook eng bs aks).imbalance_hist.length ≤ 10 := by
          simpa [handleMessageB, outState, calculateMonolithB_hist, updateRegimeB_hist] using h
        simp [handleMessageB, outState, calculateMonolithB_domain, updateRegimeB_small _ hm,
          processBook_domain]
  | otherStream =>
    have hm : eng.imbalance_hist.length ≤ 10 := by
      simpa [handleMessageB, outState, calculateMonolithB_hist, updateRegimeB_hist] using h
    simp [handleMessageB, outState, calculateMonolithB_domain, updateRegimeB_small _ hm]

/-- With more than ten samples, variant A updateRegime writes exactly the
spec-side three-way classification of the population variance. -/
theorem updateRegimeA_big (eng : Engine) (h : 10 < eng.imbalance_hist.length) :
    (updateRegimeA eng).state.domain_state
      = classifyRegime eng.imbalance_hist ((1/10) ^ 2) ((35/100) ^ 2)
          "STAGNATION" "EQUILIBRIUM" "VOLATILITY" := by
  simp only [updateRegimeA, if_pos h, classifyRegime, popVariance, foldl_add_id,
    foldl_add_map, zero_add]

/-- With more than ten samples, variant B updateRegime writes exactly the
spec-side three-way classification of the population variance. -/
theorem updateRegimeB_big (eng : Engine) (h : 10 < eng.imbalance_hist.length) :
    (updateRegimeB eng).state.domain_state
      = classifyRegime eng.imbalance_hist ((1/10) ^ 2) ((4/10) ^ 2)
          "STAGNANT" "STABLE" "VOLATILE" := by
  simp only [updateRegimeB, if_pos h, classifyRegime, popVariance, foldl_add_id,
    foldl_add_map, zero_add]

/-- With more than ten samples, variant A updateRegime writes one of the
three regime names. -/
theorem updateRegimeA_classified (eng : Engine) (h : 10 < eng.imbalance_hist.length) :
    (updateRegimeA eng).state.domain_state = "STAGNATION"
    ∨ (updateRegimeA eng).state.domain_state = "EQUILIBRIUM"
    ∨ (updateRegimeA eng).state.domain_state = "VOLATILITY" := by
  simp only [updateRegimeA, if_pos h]
  split_ifs <;> simp

/-- On a reachable variant A state whose history holds ten or fewer samples
the regime field still carries the initial placeholder. -/
theorem reachableA_domain_small (eng : Engine) (hr : ReachableA eng)
    (h : eng.imbalance_hist.length ≤ 10) :
    eng.state.domain_state = "CALCULATING" := by
  induction hr with
  | init => rfl
  | step eng2 msg t_now hr2 ih =>
    have hpre : eng2.imbalance_hist.length ≤ 10 :=
      le_trans (handleA_hist_len eng2 msg t_now) h
    rw [handleA_domain_small eng2 msg t_now h]
    exact ih hpre

/-- On a reachable variant B state whose history holds ten or fewer samples
the regime field still carries the initial placeholder. -/
theorem reachableB_domain_small (eng : Engine) (hr : ReachableB eng)
    (h : eng.imbalance_hist.length ≤ 10) :
    eng.state.domain_state = "CALCULATING" := by
  induction hr with
  | init => rfl
  | step eng2 msg t_now hr2 ih =>
    have hpre : eng2.imbalance_hist.length ≤ 10 :=
      le_trans (handleB_hist_len eng2 msg t_now) h
    rw [handleB_domain_small eng2 msg t_now h]
    exact ih hpre

/-- On a reachable variant A state whose history already exceeds ten samples
the regime field carries one of the three classified names. -/
theorem reachableA_domain_classified (eng : Engine) (hr : ReachableA eng)
    (h : 10 < eng.imbalance_hist.length) :
    eng.state.domain_state = "STAGNATION"
    ∨ eng.state.domain_state = "EQUILIBRIUM"
    ∨ eng.state.domain_state = "VOLATILITY" := by
  induction hr with
  | init => simp [initEngineA] at h
  | step eng2 msg t_now hr2 ih =>
    cases msg with
    | unparseable => exact ih h
    | noStream => exact ih h
    | noData tag =>
      cases tag with
      | aggTrade => exact ih h
      | depth => exact ih h
      | other =>
        have hm : 10 < eng2.imbalance_hist.length := by
          simpa [handleMessageA, outState, calculateMonolithA_hist, updateRegimeA_hist] using h
        simpa [handleMessageA, outState, calculateMonolithA_domain]
          using updateRegimeA_classified eng2 hm
    | trade p q m =>
      have hm : 10 < (processTradeA eng2 p q (m == some true) t_now).imbalance_hist.length := by
        simpa [handleMessageA, outState, calculateMonolithA_hist, updateRegimeA_hist] using h
      simpa [handleMessageA, outState, calculateMonolithA_domain]
        using updateRegimeA_classified _ hm
    | book b a =>
      cases b with
      | none => exact ih h
      | some bs =>
        cases a with
        | none => exact ih (by simpa [handleMessageA, outState] using h)
        | some aks =>
          have hm : 10 < (processBook eng2 bs aks).imbalance_hist.length := by
            simpa [handleMessageA, outState, calculateMonolithA_hist, updateRegimeA_hist] using h
          simpa [handleMessageA, outState, calculateMonolithA_domain]
            using updateRegimeA_classified _ hm
    | otherStream =>
      have hm : 10 < eng2.imbalance_hist.length := by
        simpa [handleMessageA, outState, calculateMonolithA_hist, updateRegimeA_hist] using h
      simpa [handleMessageA, outState, calculateMonolithA_domain]
        using updateRegimeA_classified eng2 hm

/-- runMsgsA preserves reachability. -/
theorem reachableA_runMsgsA (eng : Engine) (hr : ReachableA eng) (msgs : List (InMsg × ℚ)) :
    ReachableA (runMsgsA eng msgs) := by
  induction msgs generalizing eng with
  | nil => exact hr
  | cons hd tl ih =>
    obtain ⟨m, t⟩ := hd
    exact ih _ (ReachableA.step eng m t hr)

/-- runMsgsA never shortens the history. -/
theorem runMsgsA_hist_len (eng : Engine) (msgs : List (InMsg × ℚ)) :
    eng.imbalance_hist.length ≤ (runMsgsA eng msgs).imbalance_hist.length := by
  induction msgs generalizing eng with
  | nil => exact le_refl _
  | cons hd tl ih =>
    obtain ⟨m, t⟩ := hd
    exact le_trans (handleA_hist_len eng m t) (ih _)

/-- getD of an index inside the list is a member. -/
theorem getD_mem_of_lt (l : List Snap) (i : ℕ) (h : i < l.length) (d : Snap) :
    l.getD i d ∈ l := by
  rw [List.getD_eq_getElem l d h]
  exact List.getElem_mem h

/-- Distinct indices of a duplicate-free list read distinct values. -/
theorem nodup_getD_ne (l : List ℕ) (hn : l.Nodup) (i j : ℕ)
    (hi : i < l.length) (hj : j < l.length) (hij : i ≠ j) (d : ℕ) :
    l.getD i d ≠ l.getD j d := by
  rw [List.getD_eq_getElem l d hi, List.getD_eq_getElem l d hj]
  intro hEq
  have hinj := List.nodup_iff_injective_getElem.mp hn
  have h2 : (⟨i, hi⟩ : Fin l.length) = ⟨j, hj⟩ := @hinj ⟨i, hi⟩ ⟨j, hj⟩ hEq
  exact hij (by simpa using congrArg Fin.val h2)

/-- Setting one store cell leaves every other cell unchanged. -/
theorem getD_set_ne_store (l : List (List Titan)) (r i : ℕ) (x : List Titan)
    (d : List Titan) (h : r ≠ i) :
    (l.set r x).getD i d = l.getD i d := by
  induction l generalizing r i with
  | nil => simp [List.set]
  | cons hd tl ih =>
    cases r with
    | zero =>
      cases i with
      | zero => exact absurd rfl h
      | succ j => simp [List.set]
    | succ r2 =>
      cases i with
      | zero => simp [List.set]
      | succ j => simpa [List.set] using ih r2 j (by omega)

/-- The snapshot store address read through snapshot i, seen through the
projected address list. -/
theorem snapAddr_getD (l : List Snap) (i : ℕ) :
    (l.getD i defaultSnap).titansAddr
      = (l.map Snap.titansAddr).getD i defaultSnap.titansAddr := by
  rw [List.getD_map l defaultSnap Snap.titansAddr]

/-!
Claim theorems.
-/

/-- C2: under the star-count policy the signal is determined by the score and
the sign of kinetic — score at least 4 gives EXECUTE LONG when kinetic is
positive and EXECUTE SHORT otherwise, score exactly 3 gives PREPARE, every
other score gives STANDBY; and the state kinetic 60, pressure 0, elasticity
3, regime volatile scores 3 and signals PREPARE. -/
theorem c2_star_count_signal :
    (∀ eng : Engine,
      (calculateMonolithA eng).state.signal =
        (if 4 ≤ (calculateMonolithA eng).state.monolith_stars then
          (if 0 < (calculateMonolithA eng).state.void_kinetic then "EXECUTE LONG"
           else "EXECUTE SHORT")
         else if (calculateMonolithA eng).state.monolith_stars = 3 then "PREPARE"
         else "STANDBY"))
    ∧ (calculateMonolithA c2Engine).state.monolith_stars = 3
    ∧ (calculateMonolithA c2Engine).state.signal = "PREPARE" := by
  refine ⟨fun eng => ?_, by norm_num [calculateMonolithA, c2Engine, initStateA],
    by norm_num [calculateMonolithA, c2Engine, initStateA]⟩
  simp only [calculateMonolithA]

/-- C3: under the trap and break policy the signal is the first matching
guard of the fixed four-guard sequence, OBSERVE when none matches; and
kinetic 60 with elasticity 0.3 yields SHORT (TRAP). -/
theorem c3_trap_break_signal :
    (∀ eng : Engine,
      (calculateMonolithB eng).state.signal
        = trapBreakSpec eng.state.void_kinetic eng.state.void_elasticity)
    ∧ (calculateMonolithB c3Engine).state.signal = "SHORT (TRAP)"
    ∧ trapBreakSpec 60 (3/10) = "SHORT (TRAP)" := by
  refine ⟨fun eng => ?_, by norm_num [calculateMonolithB, c3Engine, initStateB],
    by norm_num [trapBreakSpec, trapBreakGuards, List.find?]⟩
  by_cases h1 : 50 < eng.state.void_kinetic <;>
  by_cases h2 : eng.state.void_elasticity < (2 : ℚ)⁻¹ <;>
  by_cases h3 : 2 < eng.state.void_elasticity <;>
  by_cases h4 : eng.state.void_kinetic < -50 <;>
  by_cases h5 : -(2 : ℚ)⁻¹ < eng.state.void_elasticity <;>
  by_cases h6 : eng.state.void_elasticity < -2 <;>
  simp [calculateMonolithB, trapBreakSpec, trapBreakGuards, List.find?, h1, h2, h3, h4, h5, h6]

/-- C4: after every recordTrade call, in both variants, kinetic equals buy
volume minus sell volume over the buffered trades with timestamp strictly
inside the trailing 3-second window; and the three-trade example evaluated
at time 4 gives kinetic 1. -/
theorem c4_kinetic_net_flow :
    (∀ (eng : Engine) (p q : ℚ) (mk : Bool) (t_now : ℚ),
      (processTradeA eng p q mk t_now).state.void_kinetic
          = netFlowSpec (processTradeA eng p q mk t_now).trades t_now
      ∧ (processTradeB eng p q mk t_now).state.void_kinetic
          = netFlowSpec (processTradeB eng p q mk t_now).trades t_now)
    ∧ (processTradeA (processTradeA (processTradeA initEngineA 100 10 false 0)
        100 4 true 1) 100 1 false 4).state.void_kinetic = 1 := by
  refine ⟨fun eng p q mk t_now => ⟨?_, ?_⟩,
    by norm_num [processTradeA, initEngineA, initStateA, List.filter]⟩
  · simp only [processTradeA, netFlowSpec, foldl_add_map, List.filter_filter, zero_add]
    split_ifs <;> rfl
  · simp only [processTradeB, netFlowSpec, foldl_add_map, List.filter_filter, zero_add]
    split_ifs <;> rfl

/-- C5 counterexample: after two buyer trades of quantity 1/200 at prices 1
and 2, the micro window holds two trades whose summed quantity is exactly the
0.01 floor — not below it — yet variant A's elasticity stays at its previous
value 0 instead of taking the formula value 1000000, because the source
requires the volume to be strictly above the floor. -/
theorem c5_counterexample :
    2 ≤ c5Engine.trades.length
    ∧ windowVolume (lastWindow c5Engine.trades 20) = 1/100
    ∧ ¬ windowVolume (lastWindow c5Engine.trades 20) < 1/100
    ∧ elasticityFormula (lastWindow c5Engine.trades 20) = 1000000
    ∧ c5Engine.state.void_elasticity = 0
    ∧ c5Engine.state.void_elasticity ≠ elasticityFormula (lastWindow c5Engine.trades 20) := by
  norm_num [c5Engine, processTradeA, initEngineA, initStateA, windowVolume, lastWindow,
    elasticityFormula, defaultTrade]

/-- C5 amended: after every recordTrade call, with at least two trades
buffered, if the summed quantity of the last N trades (N 20 in variant A, 15
in variant B) is strictly above the 0.01 floor then elasticity equals last
price minus first price over that summed quantity times 10000; at or below
the floor variant A holds the previous value and variant B resets to zero;
with fewer than two trades both leave the metric untouched. -/
theorem c5_amended (eng : Engine) (p q : ℚ) (mk : Bool) (t_now : ℚ) :
    (processTradeA eng p q mk t_now).state.void_elasticity
        = elasticityNextA (processTradeA eng p q mk t_now).trades eng.state.void_elasticity
    ∧ (processTradeB eng p q mk t_now).state.void_elasticity
        = elasticityNextB (processTradeB eng p q mk t_now).trades eng.state.void_elasticity := by
  constructor
  · simp only [processTradeA, elasticityNextA, lastWindow, windowVolume, elasticityFormula,
      foldl_add_map, zero_add]
    split_ifs <;> rfl
  · simp only [processTradeB, elasticityNextB, lastWindow, windowVolume, elasticityFormula,
      foldl_add_map, zero_add]
    split_ifs <;> rfl

/-- C5 amended witness at the counterexample input: variant A holds 0 and
variant B resets to 0 at a window volume exactly on the floor. -/
theorem c5_amended_witness :
    c5Engine.state.void_elasticity
        = elasticityNextA c5Engine.trades
            (processTradeA initEngineA 1 (1/200) false 0).state.void_elasticity
    ∧ (processTradeB (processTradeB initEngineB 1 (1/200) false 0) 2 (1/200) false 0).state.void_elasticity
        = elasticityNextB (processTradeB (processTradeB initEngineB 1 (1/200) false 0) 2 (1/200) false 0).trades
            (processTradeB initEngineB 1 (1/200) false 0).state.void_elasticity :=
  ⟨(c5_amended (processTradeA initEngineA 1 (1/200) false 0) 2 (1/200) false 0).1,
   (c5_amended (processTradeB initEngineB 1 (1/200) false 0) 2 (1/200) false 0).2⟩

/-- C7: a zero-quantity update pair removes the price's entry, any other
quantity upserts it, and a removal followed by a non-zero update for the same
price restores the level with the new quantity. -/
theorem c7_book_delta (m : Book) (p q : ℚ) :
    (q = 0 → lookupQty (applyBookUpdate m (p, q)) p = none)
    ∧ (q ≠ 0 → lookupQty (applyBookUpdate m (p, q)) p = some q)
    ∧ (∀ q2 : ℚ, q2 ≠ 0 →
        lookupQty (applyBookUpdate (applyBookUpdate m (p, 0)) (p, q2)) p = some q2) := by
  refine ⟨fun h0 => ?_, fun hne => ?_, fun q2 hne => ?_⟩
  · simp only [applyBookUpdate, h0, if_pos rfl]
    exact lookupQty_mapDelete m p
  · simp only [applyBookUpdate, if_neg hne]
    exact lookupQty_mapSet m p q
  · simp only [applyBookUpdate, if_pos rfl, if_neg hne]
    exact lookupQty_mapSet (mapDelete m p) p q2

/-- C7 witness on a one-level book. -/
theorem c7_book_delta_witness :
    lookupQty (applyBookUpdate [((1 : ℚ), (2 : ℚ))] (1, 0)) 1 = none
    ∧ lookupQty (applyBookUpdate [((1 : ℚ), (2 : ℚ))] (1, 5)) 1 = some 5
    ∧ lookupQty (applyBookUpdate (applyBookUpdate [((1 : ℚ), (2 : ℚ))] (1, 0)) (1, 7)) 1 = some 7 :=
  ⟨(c7_book_delta [((1 : ℚ), (2 : ℚ))] 1 0).1 rfl,
   (c7_book_delta [((1 : ℚ), (2 : ℚ))] 1 5).2.1 (by norm_num),
   (c7_book_delta [((1 : ℚ), (2 : ℚ))] 1 0).2.2 7 (by norm_num)⟩

/-- C6: whenever a book delta leaves both sides non-empty — with quantities
drawn from the feed's value domain, meaning nonnegative delta quantities over
book sides whose stored quantities are positive — the recomputed pressure
ratio lies in the closed interval from -1 to 1 (a non-positive denominator is
written as ratio 0, which also lies in the interval). -/
theorem c6_pressure_bounds (eng : Engine) (bids asks : List (ℚ × ℚ))
    (hb : bookPos eng.book_bids) (ha : bookPos eng.book_asks)
    (hbu : ∀ pq ∈ bids, 0 ≤ pq.2) (hau : ∀ pq ∈ asks, 0 ≤ pq.2)
    (hsb : (processBook eng bids asks).book_bids ≠ [])
    (hsa : (processBook eng bids asks).book_asks ≠ []) :
    -1 ≤ (processBook eng bids asks).state.void_pressure
    ∧ (processBook eng bids asks).state.void_pressure ≤ 1 := by
  rw [processBook_bids] at hsb
  rw [processBook_asks] at hsa
  have hb2 : bookPos (applyUpdates eng.book_bids bids) :=
    bookPos_applyUpdates bids eng.book_bids hb hbu
  have ha2 : bookPos (applyUpdates eng.book_asks asks) :=
    bookPos_applyUpdates asks eng.book_asks ha hau
  have hlb : 0 ≤ (lookupQty (applyUpdates eng.book_bids bids)
      (maxKey (applyUpdates eng.book_bids bids))).getD 0 :=
    lookupQty_getD_nonneg _ _ hb2
  have hla : 0 ≤ (lookupQty (applyUpdates eng.book_asks asks)
      (minKey (applyUpdates eng.book_asks asks))).getD 0 :=
    lookupQty_getD_nonneg _ _ ha2
  have hcond : ¬((applyUpdates eng.book_bids bids).length = 0
      ∨ (applyUpdates eng.book_asks asks).length = 0) := by
    rw [List.length_eq_zero, List.length_eq_zero]
    tauto
  simp only [processBook]
  rw [if_neg hcond]
  simp only []
  constructor
  · split_ifs with hd
    · rw [le_div_iff hd]
      linarith
    · norm_num
  · split_ifs with hd
    · rw [div_le_one hd]
      linarith
    · norm_num

/-- C6 witness: a single bid level of 5 against a single ask level of 3. -/
theorem c6_pressure_bounds_witness :
    -1 ≤ (processBook initEngineA [(100, 5)] [(101, 3)]).state.void_pressure
    ∧ (processBook initEngineA [(100, 5)] [(101, 3)]).state.void_pressure ≤ 1 :=
  c6_pressure_bounds initEngineA [(100, 5)] [(101, 3)]
    (by intro pq h; simp [initEngineA] at h)
    (by intro pq h; simp [initEngineA] at h)
    (by intro pq h; simp at h; simp [h])
    (by intro pq h; simp at h; simp [h])
    (by norm_num [processBook, initEngineA, applyUpdates, applyBookUpdate, mapSet])
    (by norm_num [processBook, initEngineA, applyUpdates, applyBookUpdate, mapSet])

/-- C8: the regime is a pure function of the retained imbalance history —
with ten or fewer samples updateRegime leaves the field untouched, and on any
reachable state it then still carries the initial CALCULATING placeholder;
with more than ten samples it equals the three-way threshold classification
of the dispersion of the full history (thresholds squared because the source
classifies the square root of the population variance); and a history of
twelve samples with volatility exactly 0.25 classifies, under variant A's
thresholds 0.10 and 0.35, to the middle state. -/
theorem c8_regime_classification :
    (∀ eng : Engine, ReachableA eng → eng.imbalance_hist.length ≤ 10 →
        eng.state.domain_state = "CALCULATING")
    ∧ (∀ eng : Engine, ReachableB eng → eng.imbalance_hist.length ≤ 10 →
        eng.state.domain_state = "CALCULATING")
    ∧ (∀ eng : Engine, eng.imbalance_hist.length ≤ 10 →
        updateRegimeA eng = eng ∧ updateRegimeB eng = eng)
    ∧ (∀ eng : Engine, 10 < eng.imbalance_hist.length →
        (updateRegimeA eng).state.domain_state
            = classifyRegime eng.imbalance_hist ((1/10) ^ 2) ((35/100) ^ 2)
                "STAGNATION" "EQUILIBRIUM" "VOLATILITY"
        ∧ (updateRegimeB eng).state.domain_state
            = classifyRegime eng.imbalance_hist ((1/10) ^ 2) ((4/10) ^ 2)
                "STAGNANT" "STABLE" "VOLATILE")
    ∧ popVariance c8Hist = 1/16
    ∧ (updateRegimeA c8Engine).state.domain_state = "EQUILIBRIUM" := by
  refine ⟨reachableA_domain_small, reachableB_domain_small,
    fun eng h => ⟨updateRegimeA_small eng h, updateRegimeB_small eng h⟩,
    fun eng h => ⟨updateRegimeA_big eng h, updateRegimeB_big eng h⟩,
    by norm_num [popVariance, c8Hist, List.replicate],
    by norm_num [updateRegimeA, c8Engine, c8Hist, initEngineA, List.replicate]⟩

/-- C8 witness: the initial engines are reachable with empty histories and
carry the placeholder; the twelve-sample history classifies to the middle state. -/
theorem c8_regime_classification_witness :
    initEngineA.state.domain_state = "CALCULATING"
    ∧ initEngineB.state.domain_state = "CALCULATING"
    ∧ (updateRegimeA c8Engine).state.domain_state = "EQUILIBRIUM" :=
  ⟨c8_regime_classification.1 initEngineA ReachableA.init (by norm_num [initEngineA]),
   c8_regime_classification.2.1 initEngineB ReachableB.init (by norm_num [initEngineB]),
   c8_regime_classification.2.2.2.2.2⟩

/-- Map.set never empties a side. -/
theorem mapSet_ne_nil (m : Book) (k v : ℚ) : mapSet m k v ≠ [] := by
  unfold mapSet
  split
  · intro h
    rw [List.map_eq_nil] at h
    subst h
    simp_all
  · simp

/-- A single non-zero upsert leaves the side non-empty. -/
theorem applyUpdates_single_ne_nil (m : Book) (k v : ℚ) (hv : v ≠ 0) :
    applyUpdates m [(k, v)] ≠ [] := by
  simp only [applyUpdates, List.foldl, applyBookUpdate]
  rw [if_neg (by simpa using hv)]
  exact mapSet_ne_nil m k v

/-- When both applied sides are non-empty and the history is below capacity,
processBook appends exactly one sample. -/
theorem processBook_hist_len_succ (eng : Engine) (bids asks : List (ℚ × ℚ))
    (hsb : applyUpdates eng.book_bids bids ≠ [])
    (hsa : applyUpdates eng.book_asks asks ≠ [])
    (h : eng.imbalance_hist.length < 120) :
    (processBook eng bids asks).imbalance_hist.length
      = eng.imbalance_hist.length + 1 := by
  have hcond : ¬((applyUpdates eng.book_bids bids).length = 0
      ∨ (applyUpdates eng.book_asks asks).length = 0) := by
    rw [List.length_eq_zero, List.length_eq_zero]
    tauto
  simp only [processBook]
  rw [if_neg hcond]
  simp only []
  rw [if_neg (by simp; omega)]
  simp

/-- Running n copies of the canonical depth message grows the history by n. -/
theorem runBooks_hist_len (n : ℕ) (eng : Engine)
    (h : eng.imbalance_hist.length + n ≤ 120) :
    (runMsgsA eng (List.replicate n
        (InMsg.book (some [(1, 1)]) (some [(2, 1)]), 0))).imbalance_hist.length
      = eng.imbalance_hist.length + n := by
  induction n generalizing eng with
  | zero => simp [runMsgsA]
  | succ n2 ih =>
    rw [List.replicate_succ]
    show (runMsgsA (outState (handleMessageA eng
        (InMsg.book (some [(1, 1)]) (some [(2, 1)])) 0)) _).imbalance_hist.length = _
    have hstep : (outState (handleMessageA eng
        (InMsg.book (some [(1, 1)]) (some [(2, 1)])) 0)).imbalance_hist.length
        = eng.imbalance_hist.length + 1 := by
      simp only [handleMessageA, outState, calculateMonolithA_hist, updateRegimeA_hist]
      exact processBook_hist_len_succ eng _ _
        (applyUpdates_single_ne_nil _ 1 1 one_ne_zero)
        (applyUpdates_single_ne_nil _ 2 1 one_ne_zero) (by omega)
    rw [ih _ (by rw [hstep]; omega), hstep]
    omega

/-- The canonical eleven-tick run holds eleven samples. -/
theorem c10Engine_hist_len : c10Engine.imbalance_hist.length = 11 := by
  have h := runBooks_hist_len 11 initEngineA (by simp [initEngineA])
  simpa [c10Engine, elevenBooks, initEngineA] using h

/-- C10: once the imbalance history holds more than ten samples it never
shrinks back, and after any further message sequence the regime field is one
of the three classified values, never the initial CALCULATING placeholder. -/
theorem c10_regime_persistence (eng : Engine) (h1 : ReachableA eng)
    (h2 : 10 < eng.imbalance_hist.length) (msgs : List (InMsg × ℚ)) :
    10 < (runMsgsA eng msgs).imbalance_hist.length
    ∧ ((runMsgsA eng msgs).state.domain_state = "STAGNATION"
       ∨ (runMsgsA eng msgs).state.domain_state = "EQUILIBRIUM"
       ∨ (runMsgsA eng msgs).state.domain_state = "VOLATILITY")
    ∧ (runMsgsA eng msgs).state.domain_state ≠ "CALCULATING" := by
  have hlen : 10 < (runMsgsA eng msgs).imbalance_hist.length :=
    lt_of_lt_of_le h2 (runMsgsA_hist_len eng msgs)
  have hcls := reachableA_domain_classified _ (reachableA_runMsgsA eng h1 msgs) hlen
  refine ⟨hlen, hcls, ?_⟩
  rcases hcls with h | h | h <;> simp [h]

/-- C10 witness: the reachable engine after eleven depth ticks. -/
theorem c10_regime_persistence_witness :
    10 < (runMsgsA c10Engine []).imbalance_hist.length
    ∧ ((runMsgsA c10Engine []).state.domain_state = "STAGNATION"
       ∨ (runMsgsA c10Engine []).state.domain_state = "EQUILIBRIUM"
       ∨ (runMsgsA c10Engine []).state.domain_state = "VOLATILITY")
    ∧ (runMsgsA c10Engine []).state.domain_state ≠ "CALCULATING" :=
  c10_regime_persistence c10Engine
    (reachableA_runMsgsA initEngineA ReachableA.init elevenBooks)
    (by rw [c10Engine_hist_len]; omega) []

/-- C9 counterexample: a JSON-parseable aggTrade payload with numeric price
and quantity but no maker flag violates the feed contract, yet the handler
processes it — the negated missing flag reads as buyer-initiated — so the
trade buffer grows, the price moves, and a snapshot is published: the tick is
neither skipped nor the state left unchanged. -/
theorem c9_counterexample :
    isPublished (handleMessageA initEngineA c9BadMsg 0) = true
    ∧ (outState (handleMessageA initEngineA c9BadMsg 0)).trades.length = 1
    ∧ initEngineA.trades.length = 0
    ∧ (outState (handleMessageA initEngineA c9BadMsg 0)).state.price = 3/2
    ∧ initEngineA.state.price = 0 :=
  ⟨rfl, rfl, rfl, rfl, rfl⟩

/-- C9 amended: a message that fails JSON parsing, lacks the stream field,
lacks the data object on a trade or depth stream, or lacks the bid update
array on a depth stream throws before any mutation, so the tick is skipped
and the whole engine state is left exactly as it was; but a parseable
malformed message that survives the field accesses (for example a trade
message missing the maker flag) is processed and mutates state, and a depth
message with bids but no asks mutates the bid book before throwing. -/
theorem c9_amended (eng : Engine) (t_now : ℚ) :
    handleMessageA eng .unparseable t_now = .threw eng
    ∧ handleMessageA eng .noStream t_now = .threw eng
    ∧ handleMessageA eng (.noData .aggTrade) t_now = .threw eng
    ∧ handleMessageA eng (.noData .depth) t_now = .threw eng
    ∧ (∀ aks, handleMessageA eng (.book none aks) t_now = .threw eng)
    ∧ handleMessageB eng .unparseable t_now = .threw eng
    ∧ handleMessageB eng .noStream t_now = .threw eng
    ∧ handleMessageB eng (.noData .aggTrade) t_now = .threw eng
    ∧ handleMessageB eng (.noData .depth) t_now = .threw eng
    ∧ (∀ aks, handleMessageB eng (.book none aks) t_now = .threw eng)
    ∧ (∀ bs, handleMessageA eng (.book (some bs) none) t_now
        = .threw { eng with book_bids := applyUpdates eng.book_bids bs }) :=
  ⟨rfl, rfl, rfl, rfl, fun _ => rfl, rfl, rfl, rfl, rfl, fun _ => rfl, fun _ => rfl⟩

/-- C1 counterexample: the publish site hands the subscriber a shallow spread
copy, so after one published tick the snapshot's titans field holds the very
address the engine's state holds; a subscriber emptying the titans sequence
it received changes the titans observable through the engine's own state from
the published five rows to the empty sequence. -/
theorem c1_counterexample :
    (c1World1.snapshots.getD 0 defaultSnap).titansAddr = c1World1.engineTitansAddr
    ∧ (readTitans c1World1 c1World1.engineTitansAddr).length = 5
    ∧ readTitans c1World2 c1World2.engineTitansAddr = []
    ∧ readTitans c1World2 c1World2.engineTitansAddr
        ≠ readTitans c1World1 c1World1.engineTitansAddr := by
  refine ⟨rfl, rfl, rfl, fun h => ?_⟩
  have h5 : (readTitans c1World1 c1World1.engineTitansAddr).length = 5 := rfl
  rw [← h] at h5
  have h0 : (readTitans c1World2 c1World2.engineTitansAddr).length = 0 := rfl
  omega

/-- C1 amended: the publish copy is shallow, not deep — scalar fields are
independent copies and the titans array is shared by reference with the
engine's current state (the counterexample), but an already-issued snapshot
is never changed by later ingests (each completed tick allocates a fresh
titans array instead of editing the published one), and mutating one issued
snapshot's titans changes neither any snapshot record nor any other issued
snapshot's titans, since distinct publishes hold distinct array addresses. -/
theorem c1_amended (w : World) (msg : InMsg) (t_now : ℚ) (i j : ℕ)
    (f : List Titan → List Titan)
    (h1 : ∀ s ∈ w.snapshots, s.titansAddr < w.store.length)
    (h2 : (w.snapshots.map Snap.titansAddr).Nodup)
    (hi : i < w.snapshots.length) (hj : j < w.snapshots.length) (hij : i ≠ j) :
    ((publishTickA w msg t_now).snapshots.getD i defaultSnap
        = w.snapshots.getD i defaultSnap
      ∧ snapTitans (publishTickA w msg t_now) i = snapTitans w i)
    ∧ ((mutateTitans w ((w.snapshots.getD i defaultSnap).titansAddr) f).snapshots
        = w.snapshots
      ∧ snapTitans (mutateTitans w ((w.snapshots.getD i defaultSnap).titansAddr) f) j
        = snapTitans w j) := by
  constructor
  · cases hh : handleMessageA w.core msg t_now with
    | threw e1 =>
      exact ⟨by simp [publishTickA, hh], by simp [publishTickA, snapTitans, readTitans, hh]⟩
    | published e1 =>
      have hgetD : (publishTickA w msg t_now).snapshots.getD i defaultSnap
          = w.snapshots.getD i defaultSnap := by
        simp only [publishTickA, hh]
        exact List.getD_append _ _ _ _ hi
      refine ⟨hgetD, ?_⟩
      have haddr : (w.snapshots.getD i defaultSnap).titansAddr < w.store.length :=
        h1 _ (getD_mem_of_lt w.snapshots i hi defaultSnap)
      simp only [snapTitans, readTitans, publishTickA, hh]
      rw [List.getD_append _ _ _ _ hi]
      exact List.getD_append _ _ _ _ haddr
  · refine ⟨rfl, ?_⟩
    have haddr_ne : (w.snapshots.getD i defaultSnap).titansAddr
        ≠ (w.snapshots.getD j defaultSnap).titansAddr := by
      rw [snapAddr_getD, snapAddr_getD]
      exact nodup_getD_ne _ h2 i j (by simpa using hi) (by simpa using hj) hij _
    simp only [snapTitans, mutateTitans, readTitans]
    exact getD_set_ne_store _ _ _ _ _ haddr_ne

/-- C1 amended witness: two published ticks, then the subscriber holding the
first snapshot empties its titans; the second snapshot is unaffected, and a
further ingest leaves the first snapshot as issued. -/
theorem c1_amended_witness :
    ((publishTickA c1TwoTicks tradeMsg1 2).snapshots.getD 0 defaultSnap
        = c1TwoTicks.snapshots.getD 0 defaultSnap
      ∧ snapTitans (publishTickA c1TwoTicks tradeMsg1 2) 0 = snapTitans c1TwoTicks 0)
    ∧ ((mutateTitans c1TwoTicks
          ((c1TwoTicks.snapshots.getD 0 defaultSnap).titansAddr)
          (fun _ => [])).snapshots = c1TwoTicks.snapshots
      ∧ snapTitans (mutateTitans c1TwoTicks
          ((c1TwoTicks.snapshots.getD 0 defaultSnap).titansAddr)
          (fun _ => [])) 1 = snapTitans c1TwoTicks 1) :=
  c1_amended c1TwoTicks tradeMsg1 2 0 1 (fun _ => [])
    (by decide) (by decide) (by decide) (by decide) (by decide)
